import Mathlib

/-
Verification of the metric-aggregation utility (eval.py / eval_mult.py).

The repository scans a directory tree of experiment folders, each holding a
CSV of per-epoch metrics, selects in each folder the CSV whose name does not
contain "info", extracts the row with the maximal val_auroc together with its
paired test_auroc, tracks the best folder per root directory, and averages
the per-root bests across several roots.

Shallow embedding conventions:
  - a CSV cell is Cell := Option Rat, where none models a NaN / missing
    float value and some q a finite numeric value (floats are modelled by
    rationals; the program only compares and averages them);
  - a parsed table (pandas DataFrame from pd.read_csv) is a header list of
    column names plus one association list of (column, cell) per row; a
    column absent from a row reads as NaN, as pandas fills missing fields;
  - the outcome of pd.read_csv is ReadResult: raiseErr msg when the read or
    the parse raises (the message is str(e)), ok t when it yields table t;
  - Python None is the outer layer of an Option: a variable holding
    None-or-float is Option Cell, a variable holding None-or-non-NaN-float
    is Option Rat;
  - console warnings and error prints that the error-handling claims are
    about are collected in explicit log lists, in print order;
  - filesystem paths are FsPath (directory string plus base name), so that
    os.path.basename (os.path.join d n) = n holds by construction;
  - a directory that exists is its listing; glob over a directory that does
    not exist yields the empty list, as Python glob.glob does.
-/

namespace BrainScan

/-- Cell of a metric table: none models NaN (or a missing value), some q a
finite numeric value. -/
abbrev Cell := Option ℚ

/-- Parsed table, as produced by pd.read_csv: column header plus rows, each
row an association list from column name to cell. -/
structure Table where
  columns : List String
  rows : List (List (String × Cell))
  deriving DecidableEq, Repr

/-- Reading a cell of one row at a column: a field absent from the row is
NaN, as pandas fills short rows with NaN. -/
def getCell (row : List (String × Cell)) (col : String) : Cell :=
  (row.lookup col).join

/-- Column extraction, df[col]: the cells of every row at that column, in
row order. -/
def Table.column (t : Table) (col : String) : List Cell :=
  t.rows.map (fun r => getCell r col)

/-- Cell at a row position of a column, df.loc[i, col] for the default
RangeIndex; out of range reads NaN (unreachable in the program). -/
def cellAt (l : List Cell) (i : Nat) : Cell :=
  l.getD i none

/-- Series.idxmax with skipna=True, fused with the value it points at:
position and value of the first occurrence of the maximal non-NaN cell;
none when the column is empty or all NaN, the case in which pandas raises
(the program catches that exception). -/
def idxmax : List Cell → Option (Nat × ℚ)
  | [] => none
  | none :: rest => (idxmax rest).map (fun p => (p.1 + 1, p.2))
  | some q :: rest =>
    match idxmax rest with
    | none => some (0, q)
    | some (j, m) => if m > q then some (j + 1, m) else some (0, q)

/-- Single-quote character, used inside warning messages. -/
def sq : String := String.singleton (Char.ofNat 39)

/-- Python str.lower, restricted to the per-character lowering the file
names at hand need. -/
def toLowerStr (s : String) : String := String.mk (s.toList.map Char.toLower)

/-- Check that pat occurs at the head of l. -/
def substrAt : List Char → List Char → Bool
  | [], _ => true
  | _ :: _, [] => false
  | p :: ps, c :: cs => p == c && substrAt ps cs

/-- Check that pat occurs somewhere in l: the Python substring test
pat in s. -/
def containsSub (pat : List Char) : List Char → Bool
  | [] => substrAt pat []
  | c :: cs => substrAt pat (c :: cs) || containsSub pat cs

/-- Python test "info" in filename.lower(). -/
def hasInfo (name : String) : Bool :=
  containsSub "info".toList (toLowerStr name).toList

/-- Check that a string ends with the given suffix. -/
def strEndsWith (s suf : String) : Bool :=
  substrAt suf.toList.reverse s.toList.reverse

/-- Check that a string starts with the given piece. -/
def strStartsWith (s piece : String) : Bool :=
  substrAt piece.toList s.toList

/-- Names matched by glob.glob(os.path.join(d, "*.csv")): ending in ".csv"
and, per glob's hidden-file rule, not starting with a dot. -/
def globCsvMatch (name : String) : Bool :=
  strEndsWith name ".csv" && !(strStartsWith name ".")

/-- Filesystem path split as directory plus base name, so that
os.path.basename recovers the base of an os.path.join by construction. -/
structure FsPath where
  dir : String
  base : String
  deriving DecidableEq, Repr

/-- Rendering of the path as the string os.path.join produces. -/
def FsPath.toStr (p : FsPath) : String := p.dir ++ "/" ++ p.base

/-- Outcome of pd.read_csv on a file: an exception with message str(e), or
a parsed table. -/
inductive ReadResult where
  | raiseErr (msg : String)
  | ok (t : Table)

/-- Message text of the exception pandas idxmax raises on an empty or
all-NaN series. -/
def idxmaxRaiseText : String := "attempt to get argmax of an empty sequence"

/-- find_csv_without_info: glob the directory listing for "*.csv" and return
the first match whose lowercased base name does not contain "info"; None
when there is none. The directory is passed as its path string plus its
listing (glob of a nonexistent directory receives the empty listing). -/
def find_csv_without_info (directory : String) (listing : List String) : Option FsPath :=
  let csv_files := (listing.filter globCsvMatch).map (fun n => FsPath.mk directory n)
  csv_files.find? (fun f => !(hasInfo f.base))

/-- Warning printed when a folder has no selectable CSV. -/
def noCsvMsg (folderPath : String) : String :=
  "Warning: No CSV file without " ++ sq ++ "info" ++ sq ++ " found in " ++ folderPath

/-- Warning printed by process_csv_file when a required column is absent. -/
def missingColsMsg (csvPath : String) : String :=
  "Warning: Required columns not found in " ++ csvPath

/-- Error line printed by the except branch of process_csv_file. -/
def errProcMsg (csvPath : String) (e : String) : String :=
  "Error processing " ++ csvPath ++ ": " ++ e

/-- process_csv_file: on a read/parse exception, or a missing required
column, or an idxmax exception (empty or all-NaN val_auroc column), return
the Python pair (None, None) — encoded none — plus the printed warning or
error line; otherwise return the val_auroc cell at the first maximal row
paired with the test_auroc cell of the same row. -/
def process_csv_file (csvPath : String) (r : ReadResult) :
    Option (Cell × Cell) × List String :=
  match r with
  | .raiseErr e => (none, [errProcMsg csvPath e])
  | .ok t =>
    if t.columns.contains "val_auroc" && t.columns.contains "test_auroc" then
      match idxmax (t.column "val_auroc") with
      | none => (none, [errProcMsg csvPath idxmaxRaiseText])
      | some (i, _) =>
        (some (cellAt (t.column "val_auroc") i, cellAt (t.column "test_auroc") i), [])
    else
      (none, [missingColsMsg csvPath])

/-- Valid per-folder record appended to the results list: folder name, base
name of the selected file, best val_auroc cell and the paired test_auroc
cell. The val cell is produced by idxmax and so is in fact never NaN. -/
structure FolderResult where
  folder : String
  file : String
  val : Cell
  test : Cell
  deriving DecidableEq, Repr

/-- One immediate child of a root directory: its name, whether it is a
directory, its file listing, and the content of its files as the outcome
pd.read_csv would give on each base name. -/
structure Entry where
  name : String
  isDir : Bool
  listing : List String
  read : String → ReadResult

/-- Body of the per-folder loop of analyze_directory: skip non-directories
silently, warn and skip when no selectable CSV exists, run
process_csv_file on the selected file, and keep the record only when both
returned values are not None. -/
def entryProcess (rootPath : String) (e : Entry) : Option FolderResult × List String :=
  if e.isDir then
    let folderPath := rootPath ++ "/" ++ e.name
    match find_csv_without_info folderPath e.listing with
    | none => (none, [noCsvMsg folderPath])
    | some p =>
      match process_csv_file p.toStr (e.read p.base) with
      | (none, msgs) => (none, msgs)
      | (some (v, t), msgs) => (some ⟨e.name, p.base, v, t⟩, msgs)
  else (none, [])

/-- Accumulator of the loop of analyze_directory. bestVal models the float
variable initialised to -inf: none stands for -inf, some q for the value q
(a NaN can never be assigned, since a NaN never wins the > comparison).
bestTest models the variable initialised to Python None. -/
structure Acc where
  bestVal : Option ℚ
  bestTest : Option Cell
  bestFolder : Option String
  bestFile : Option String
  results : List FolderResult
  deriving DecidableEq, Repr

/-- The comparison val_auroc > overall_best_val_auroc of the source, with
Python float semantics: a NaN candidate compares False, anything numeric
beats the initial -inf. -/
def pyGtOpt (v : Cell) (best : Option ℚ) : Bool :=
  match v, best with
  | some a, some b => a > b
  | some _, none => true
  | none, _ => false

/-- Initial accumulator: overall_best_val_auroc = -inf, the other trackers
None, results empty. -/
def initAcc : Acc := ⟨none, none, none, none, []⟩

/-- One iteration of the folder loop of analyze_directory on the
accumulator: skip when the entry yielded no valid pair; otherwise append
the record to results and update the best trackers when the new val_auroc
strictly exceeds the incumbent. -/
def stepAcc (rootPath : String) (acc : Acc) (e : Entry) : Acc :=
  match (entryProcess rootPath e).1 with
  | none => acc
  | some r =>
    let acc2 := { acc with results := acc.results ++ [r] }
    if pyGtOpt r.val acc2.bestVal then
      { acc2 with bestVal := r.val, bestTest := some r.test,
                  bestFolder := some r.folder, bestFile := some r.file }
    else acc2

/-- The folder loop of analyze_directory: process each entry in listing
order with stepAcc. The second component collects the printed warnings and
error lines, in order. -/
def scanFolders (rootPath : String) (acc : Acc) : List Entry → Acc × List String
  | [] => (acc, [])
  | e :: rest =>
    let out := scanFolders rootPath (stepAcc rootPath acc e) rest
    (out.1, (entryProcess rootPath e).2 ++ out.2)

/-- A root directory argument: either it does not exist, or it exists with
its immediate child entries in os.listdir order. -/
inductive RootDir where
  | missing
  | present (entries : List Entry)

/-- Test os.path.exists on a root argument. -/
def RootDir.pathExists : RootDir → Bool
  | .missing => false
  | .present _ => true

/-- Error line of analyze_directory on a nonexistent root. -/
def missingRootMsg (d : String) : String :=
  "Error: Directory " ++ d ++ " does not exist."

/-- What one analyze_directory call reports: the returned best val, best
test and results of eval_mult.py, plus the best folder and file names that
eval.py prints in its overall-results block, plus the warning/error log.
All four best fields are None when no folder yielded a valid pair. -/
structure DirOutcome where
  bestVal : Option ℚ
  bestTest : Option Cell
  bestFolder : Option String
  bestFile : Option String
  results : List FolderResult
  log : List String
  deriving DecidableEq, Repr

/-- analyze_directory: report the missing root and stop, or scan the
entries and, when the best-test tracker was ever set, report the tracked
best; otherwise report the absent sentinel (the source prints
"No valid results found." / returns (None, None, results)). -/
def analyze_directory (rootPath : String) (root : RootDir) : DirOutcome :=
  match root with
  | .missing => ⟨none, none, none, none, [], [missingRootMsg rootPath]⟩
  | .present entries =>
    let (acc, log) := scanFolders rootPath initAcc entries
    match acc.bestTest with
    | some tc => ⟨acc.bestVal, some tc, acc.bestFolder, acc.bestFile, acc.results, log⟩
    | none => ⟨none, none, none, none, acc.results, log⟩

/-- The best pair one root contributes to the multi-directory averages:
some (val, test) exactly when both returned values are not None. -/
def rootBest (pr : String × RootDir) : Option (ℚ × Cell) :=
  let d := analyze_directory pr.1 pr.2
  match d.bestVal, d.bestTest with
  | some v, some tc => some (v, tc)
  | _, _ => none

/-- Accumulated lists of the loop of analyze_multiple_directories:
all_best_val_aurocs, all_best_test_aurocs and all_results. -/
structure MultiAcc where
  vals : List ℚ
  tests : List Cell
  results : List FolderResult
  deriving DecidableEq, Repr

/-- The loop of analyze_multiple_directories: for each root in order, run
analyze_directory and, when the returned best pair is not None, append the
val, the test and the folder results. -/
def collectBests : List (String × RootDir) → MultiAcc
  | [] => ⟨[], [], []⟩
  | pr :: rest =>
    let d := analyze_directory pr.1 pr.2
    let acc := collectBests rest
    match d.bestVal, d.bestTest with
    | some v, some tc => ⟨v :: acc.vals, tc :: acc.tests, d.results ++ acc.results⟩
    | _, _ => acc

/-- Python float addition restricted to the cells at hand: NaN propagates. -/
def pyAddC (a b : Cell) : Cell :=
  match a, b with
  | some x, some y => some (x + y)
  | _, _ => none

/-- Python sum over a list of cells, starting from 0. -/
def pySumC (l : List Cell) : Cell := l.foldl pyAddC (some 0)

/-- Division of a cell by a length: NaN propagates. -/
def pyDivNat (c : Cell) (n : Nat) : Cell :=
  match c with
  | some x => some (x / (n : ℚ))
  | none => none

/-- Python min over a nonempty list of non-NaN floats: keep the incumbent
unless the next element is strictly smaller (first minimum wins). -/
def pyMinQ : List ℚ → Option ℚ
  | [] => none
  | h :: t => some (t.foldl (fun m x => if x < m then x else m) h)

/-- Python max over a nonempty list of non-NaN floats: keep the incumbent
unless the next element is strictly larger (first maximum wins). -/
def pyMaxQ : List ℚ → Option ℚ
  | [] => none
  | h :: t => some (t.foldl (fun m x => if x > m then x else m) h)

/-- Python < on cells: any comparison with NaN is False. -/
def pyLtC (a b : Cell) : Bool :=
  match a, b with
  | some x, some y => x < y
  | _, _ => false

/-- Python > on cells: any comparison with NaN is False. -/
def pyGtC (a b : Cell) : Bool :=
  match a, b with
  | some x, some y => x > y
  | _, _ => false

/-- Python min over a nonempty list of cells, as the builtin folds it. -/
def pyMinC : List Cell → Option Cell
  | [] => none
  | h :: t => some (t.foldl (fun m x => if pyLtC x m then x else m) h)

/-- Python max over a nonempty list of cells, as the builtin folds it. -/
def pyMaxC : List Cell → Option Cell
  | [] => none
  | h :: t => some (t.foldl (fun m x => if pyGtC x m then x else m) h)

/-- Closing line printed when no root produced a valid result. -/
def noValidResultsMsg : String := "No valid results found in any directory."

/-- What analyze_multiple_directories reports: the returned average val and
average test (None, None when no root had valid results), the concatenated
folder results, and the collected warning/error log. -/
structure MultiOutcome where
  avgVal : Option ℚ
  avgTest : Option Cell
  results : List FolderResult
  log : List String
  deriving DecidableEq, Repr

/-- analyze_multiple_directories: run analyze_directory on every root in
order, keep the bests of roots whose result is not None, and when at least
one root was valid return the arithmetic means of the collected val and
test lists (the printed min/max statistics are pyMinQ/pyMaxQ/pyMinC/pyMaxC
of the same lists); otherwise report no results. -/
def analyze_multiple_directories (roots : List (String × RootDir)) : MultiOutcome :=
  let acc := collectBests roots
  let logs := (roots.map (fun pr => (analyze_directory pr.1 pr.2).log)).flatten
  if acc.vals.isEmpty then
    ⟨none, none, [], logs ++ [noValidResultsMsg]⟩
  else
    ⟨some (acc.vals.sum / (acc.vals.length : ℚ)),
     some (pyDivNat (pySumC acc.tests) acc.tests.length),
     acc.results, logs⟩

/-- Outcome of the eval.py entry point: usage exit (sys.exit(1) on a wrong
argument count) or a completed run with the analyze_directory outcome. The
source has no other exit: a missing root only prints an error inside
analyze_directory and the process then ends normally. -/
inductive SingleMain where
  | usageExit
  | completed (out : DirOutcome)
  deriving DecidableEq

/-- main of eval.py, over the argument list argv[1:], each directory
argument given with the root it denotes. -/
def main_single (args : List (String × RootDir)) : SingleMain :=
  match args with
  | [a] => .completed (analyze_directory a.1 a.2)
  | _ => .usageExit

/-- Warning printed by the eval_mult.py driver for a nonexistent root. -/
def skipDirMsg (d : String) : String :=
  "Warning: Directory " ++ d ++ " does not exist. Skipping."

/-- Outcome of the eval_mult.py entry point: usage exit, error exit when no
supplied root exists (sys.exit(1)), or a completed run. -/
inductive MultMain where
  | usageExit
  | noValidDirsExit (log : List String)
  | completed (out : MultiOutcome) (log : List String)
  deriving DecidableEq

/-- main of eval_mult.py, over argv[1:]: filter the arguments to those that
exist, warning for each skipped one; exit when none is left; otherwise run
analyze_multiple_directories on the valid ones. -/
def main_mult (args : List (String × RootDir)) : MultMain :=
  if args.isEmpty then .usageExit
  else
    let valid := args.filter (fun pr => pr.2.pathExists)
    let warns := (args.filter (fun pr => !pr.2.pathExists)).map (fun pr => skipDirMsg pr.1)
    if valid.isEmpty then .noValidDirsExit (warns ++ ["Error: No valid directories provided."])
    else .completed (analyze_multiple_directories valid) warns

/-- A filesystem for the File Selector: for each directory path, its
listing when the directory exists. -/
abbrev FileSystem := String → Option (List String)

/-- Result of glob.glob(os.path.join(d, "*.csv")) before name filtering:
the listing when the directory exists, and the empty list when it does not
(glob over a nonexistent directory matches nothing and does not raise). -/
def globListing (fs : FileSystem) (d : String) : List String :=
  (fs d).getD []

/-- find_csv_without_info as called on a real filesystem path. -/
def find_csv_in_fs (fs : FileSystem) (d : String) : Option FsPath :=
  find_csv_without_info d (globListing fs d)

/-- Whether the File Selector keeps a listing name: matched by the csv glob
and free of "info" in its lowercased name. -/
def selectable (n : String) : Bool := globCsvMatch n && !(hasInfo n)

/-- Invariant the folder loop maintains: either nothing valid was seen yet
and every tracker is still at its initial value with no results, or the
trackers hold the first result of maximal val_auroc among the collected
results. -/
def AccInv (acc : Acc) : Prop :=
  (acc.bestVal = none ∧ acc.bestTest = none ∧ acc.bestFolder = none ∧
    acc.bestFile = none ∧ acc.results = [])
  ∨ (∃ r q l1 l2, acc.results = l1 ++ r :: l2 ∧ r.val = some q ∧
      acc.bestVal = some q ∧ acc.bestTest = some r.test ∧
      acc.bestFolder = some r.folder ∧ acc.bestFile = some r.file ∧
      (∀ x ∈ acc.results, ∀ qx : ℚ, x.val = some qx → qx ≤ q) ∧
      (∀ x ∈ acc.results, ∃ qx : ℚ, x.val = some qx) ∧
      (∀ x ∈ l1, ∀ qx : ℚ, x.val = some qx → qx < q))

/-- Concrete table of the tie-break example of the spec: rows
(0.7, 0.6), (0.9, 0.5), (0.9, 0.8); the first 0.9 row must win. -/
def tieTable : Table :=
  ⟨["val_auroc", "test_auroc"],
   [[("val_auroc", some (mkRat 7 10)), ("test_auroc", some (mkRat 6 10))],
    [("val_auroc", some (mkRat 9 10)), ("test_auroc", some (mkRat 5 10))],
    [("val_auroc", some (mkRat 9 10)), ("test_auroc", some (mkRat 8 10))]]⟩

/-- Concrete folder "A" of the spec example, best 0.81 / 0.79. -/
def entryA : Entry :=
  ⟨"A", true, ["a.csv"], fun _ => .ok ⟨["val_auroc", "test_auroc"],
    [[("val_auroc", some (mkRat 81 100)), ("test_auroc", some (mkRat 79 100))]]⟩⟩

/-- Concrete folder "B" of the spec example, best 0.85 / 0.77. -/
def entryB : Entry :=
  ⟨"B", true, ["b.csv"], fun _ => .ok ⟨["val_auroc", "test_auroc"],
    [[("val_auroc", some (mkRat 85 100)), ("test_auroc", some (mkRat 77 100))]]⟩⟩

/-- Concrete folder with best pair 0.8 / 0.7. -/
def entryP : Entry :=
  ⟨"P", true, ["p.csv"], fun _ => .ok ⟨["val_auroc", "test_auroc"],
    [[("val_auroc", some (mkRat 8 10)), ("test_auroc", some (mkRat 7 10))]]⟩⟩

/-- Concrete folder with best pair 0.9 / 0.6. -/
def entryQ : Entry :=
  ⟨"Q", true, ["q.csv"], fun _ => .ok ⟨["val_auroc", "test_auroc"],
    [[("val_auroc", some (mkRat 9 10)), ("test_auroc", some (mkRat 6 10))]]⟩⟩

/-- Two concrete roots whose per-root bests are (0.8, 0.7) and (0.9, 0.6),
the averaging example of the spec. -/
def demoRoots : List (String × RootDir) :=
  [("r1", .present [entryP]), ("r2", .present [entryQ])]

/-- Concrete folder holding only an info-named table. -/
def infoEntry : Entry :=
  ⟨"logs", true, ["results_info.csv"], fun _ => .raiseErr "never read"⟩

/-- Concrete table without the required test_auroc column. -/
def noTestColTable : Table :=
  ⟨["val_auroc", "loss"], [[("val_auroc", some 1), ("loss", some 2)]]⟩

/-- Concrete folder whose selected table misses the test_auroc column. -/
def badColsEntry : Entry :=
  ⟨"badcols", true, ["metrics.csv"], fun _ => .ok noTestColTable⟩

/-- Concrete table whose val_auroc column holds only NaN. -/
def nanTable : Table :=
  ⟨["val_auroc", "test_auroc"],
   [[("val_auroc", none), ("test_auroc", some 1)]]⟩

/-- Concrete table with the required header but no rows. -/
def emptyTable : Table :=
  ⟨["val_auroc", "test_auroc"], []⟩

/-- A filesystem with no directories at all. -/
def emptyFs : FileSystem := fun _ => none

/-- A list whose idxmax is absent holds no numeric cell at any position. -/
theorem idxmax_none_getD (l : List Cell) (h : idxmax l = none) :
    ∀ j : Nat, l.getD j none = none := by
  induction l with
  | nil => intro j; simp
  | cons c rest ih =>
    intro j
    cases c with
    | none =>
      have h' : idxmax rest = none := by
        cases hrest : idxmax rest with
        | none => rfl
        | some p => rw [idxmax, hrest] at h; simp at h
      cases j with
      | zero => simp
      | succ j' => simpa using ih h' j'
    | some q =>
      exfalso
      cases hrest : idxmax rest with
      | none => rw [idxmax, hrest] at h; simp at h
      | some p =>
        rw [idxmax, hrest] at h
        rcases p with ⟨j0, m0⟩
        by_cases hgt : m0 > q <;> simp [hgt] at h

/-- An empty or all-NaN column has no idxmax: pandas raises there and the
program catches the exception. -/
theorem idxmax_all_none (l : List Cell) (h : ∀ c ∈ l, c = none) :
    idxmax l = none := by
  induction l with
  | nil => rfl
  | cons c rest ih =>
    have hc : c = none := h c (by simp)
    subst hc
    rw [idxmax, ih (fun c hc => h c (by simp [hc]))]
    rfl

/-- Specification of idxmax: it points inside the list, at a numeric cell
holding the returned value, that value bounds every numeric cell of the
list, and every earlier numeric cell is strictly below it (first maximal
row wins ties). -/
theorem idxmax_spec (l : List Cell) :
    ∀ i m, idxmax l = some (i, m) →
      i < l.length ∧ l.getD i none = some m ∧
      (∀ j q, l.getD j none = some q → q ≤ m) ∧
      (∀ j q, j < i → l.getD j none = some q → q < m) := by
  induction l with
  | nil => intro i m h; simp [idxmax] at h
  | cons c rest ih =>
    intro i m h
    cases c with
    | none =>
      cases hrest : idxmax rest with
      | none => rw [idxmax, hrest] at h; simp at h
      | some p =>
        rcases p with ⟨j0, m0⟩
        rw [idxmax, hrest] at h
        simp at h
        obtain ⟨rfl, rfl⟩ := h
        obtain ⟨hlen, hcell, hmax, hfirst⟩ := ih j0 m0 hrest
        refine ⟨by simpa using hlen, by simpa using hcell, ?_, ?_⟩
        · intro j q hj
          cases j with
          | zero => rw [List.getD_cons_zero] at hj; exact absurd hj (by simp)
          | succ j' => exact hmax j' q (by rwa [List.getD_cons_succ] at hj)
        · intro j q hjlt hj
          cases j with
          | zero => rw [List.getD_cons_zero] at hj; exact absurd hj (by simp)
          | succ j' =>
            exact hfirst j' q (Nat.lt_of_succ_lt_succ hjlt)
              (by rwa [List.getD_cons_succ] at hj)
    | some q0 =>
      cases hrest : idxmax rest with
      | none =>
        rw [idxmax, hrest] at h
        simp at h
        obtain ⟨rfl, rfl⟩ := h
        refine ⟨by simp, by simp, ?_, ?_⟩
        · intro j q hj
          cases j with
          | zero =>
            rw [List.getD_cons_zero] at hj
            exact le_of_eq (Option.some_injective ℚ hj.symm)
          | succ j' =>
            rw [List.getD_cons_succ, idxmax_none_getD rest hrest j'] at hj
            exact absurd hj (by simp)
        · intro j q hjlt _
          exact absurd hjlt (Nat.not_lt_zero j)
      | some p =>
        rcases p with ⟨j0, m0⟩
        rw [idxmax, hrest] at h
        by_cases hgt : m0 > q0
        · simp [hgt] at h
          obtain ⟨rfl, rfl⟩ := h
          obtain ⟨hlen, hcell, hmax, hfirst⟩ := ih j0 m0 hrest
          refine ⟨by simpa using hlen, by simpa using hcell, ?_, ?_⟩
          · intro j q hj
            cases j with
            | zero =>
              rw [List.getD_cons_zero] at hj
              have hq : q0 = q := Option.some_injective ℚ hj
              exact hq ▸ le_of_lt hgt
            | succ j' => exact hmax j' q (by rwa [List.getD_cons_succ] at hj)
          · intro j q hjlt hj
            cases j with
            | zero =>
              rw [List.getD_cons_zero] at hj
              have hq : q0 = q := Option.some_injective ℚ hj
              exact hq ▸ hgt
            | succ j' =>
              exact hfirst j' q (Nat.lt_of_succ_lt_succ hjlt)
                (by rwa [List.getD_cons_succ] at hj)
        · simp [hgt] at h
          obtain ⟨rfl, rfl⟩ := h
          obtain ⟨hlen, hcell, hmax, hfirst⟩ := ih j0 m0 hrest
          refine ⟨by simp, by simp, ?_, ?_⟩
          · intro j q hj
            cases j with
            | zero =>
              rw [List.getD_cons_zero] at hj
              exact le_of_eq (Option.some_injective ℚ hj.symm)
            | succ j' =>
              have hle : q ≤ m0 := hmax j' q (by rwa [List.getD_cons_succ] at hj)
              exact le_trans hle (le_of_not_lt hgt)
          · intro j q hjlt _
            exact absurd hjlt (Nat.not_lt_zero j)

/-- A found file lies in the queried directory, is selectable, and is the
first selectable name of the listing. -/
theorem find_some_spec (d : String) (l : List String) (p : FsPath)
    (h : find_csv_without_info d l = some p) :
    p.dir = d ∧ selectable p.base = true ∧
    ∃ l1 l2, l = l1 ++ p.base :: l2 ∧ ∀ n ∈ l1, selectable n = false := by
  induction l with
  | nil => simp [find_csv_without_info] at h
  | cons n rest ih =>
    by_cases hg : globCsvMatch n = true
    · by_cases hi : hasInfo n = true
      · have h' : find_csv_without_info d rest = some p := by
          simpa [find_csv_without_info, List.filter_cons, hg, hi] using h
        obtain ⟨hdir, hsel, l1, l2, hdec, hmin⟩ := ih h'
        refine ⟨hdir, hsel, n :: l1, l2, by simp [hdec], ?_⟩
        intro x hx
        rcases List.mem_cons.mp hx with hx | hx
        · subst hx; simp [selectable, hi]
        · exact hmin x hx
      · have hp : p = FsPath.mk d n := by
          have := h
          simp [find_csv_without_info, List.filter_cons, hg, hi] at this
          exact this.symm
        subst hp
        exact ⟨rfl, by simp [selectable, hg, hi], [], rest, rfl, by simp⟩
    · have h' : find_csv_without_info d rest = some p := by
        simpa [find_csv_without_info, List.filter_cons, hg] using h
      obtain ⟨hdir, hsel, l1, l2, hdec, hmin⟩ := ih h'
      refine ⟨hdir, hsel, n :: l1, l2, by simp [hdec], ?_⟩
      intro x hx
      rcases List.mem_cons.mp hx with hx | hx
      · subst hx; simp [selectable, hg]
      · exact hmin x hx

/-- Unfolding of the File Selector on a cons cell of the listing. -/
theorem find_cons (d n : String) (rest : List String) :
    find_csv_without_info d (n :: rest) =
      if selectable n then some (FsPath.mk d n) else find_csv_without_info d rest := by
  by_cases hg : globCsvMatch n = true
  · by_cases hi : hasInfo n = true
    · simp [find_csv_without_info, List.filter_cons, hg, hi, selectable]
    · simp [find_csv_without_info, List.filter_cons, hg, hi, selectable]
  · simp [find_csv_without_info, List.filter_cons, hg, selectable]

/-- The File Selector returns the not-found sentinel exactly when no name
of the listing is selectable. -/
theorem find_none_iff (d : String) (l : List String) :
    find_csv_without_info d l = none ↔ ∀ n ∈ l, selectable n = false := by
  induction l with
  | nil => simp [find_csv_without_info]
  | cons n rest ih =>
    rw [find_cons]
    by_cases hsel : selectable n = true
    · simp [hsel]
    · simp [hsel, ih]

/-- Glob over a directory that does not exist yields nothing, so the File
Selector returns the sentinel without raising. -/
theorem find_in_fs_missing (fs : FileSystem) (d : String) (h : fs d = none) :
    find_csv_in_fs fs d = none := by
  simp [find_csv_in_fs, globListing, h, find_csv_without_info]

/-- Evaluation of process_csv_file on a parsed table with both required
columns and a well-defined column maximum. -/
theorem process_ok_eq (path : String) (t : Table) (i : Nat) (m : ℚ)
    (hv : t.columns.contains "val_auroc" = true)
    (ht : t.columns.contains "test_auroc" = true)
    (hmax : idxmax (t.column "val_auroc") = some (i, m)) :
    process_csv_file path (.ok t) =
      (some (some m, cellAt (t.column "test_auroc") i), []) := by
  have hv' : "val_auroc" ∈ t.columns := by simpa using hv
  have ht' : "test_auroc" ∈ t.columns := by simpa using ht
  have hcell := (idxmax_spec _ i m hmax).2.1
  rw [List.getD_eq_getElem?_getD] at hcell
  simp [process_csv_file, hv', ht', hmax, cellAt, List.getD_eq_getElem?_getD, hcell]

/-- A successful process_csv_file result always carries a numeric (non-NaN)
best val_auroc and prints nothing. -/
theorem process_some_val (path : String) (r : ReadResult) (v tc : Cell)
    (msgs : List String) (h : process_csv_file path r = (some (v, tc), msgs)) :
    (∃ q, v = some q) ∧ msgs = [] := by
  cases r with
  | raiseErr e => simp [process_csv_file] at h
  | ok t =>
    by_cases hv : "val_auroc" ∈ t.columns
    · by_cases ht : "test_auroc" ∈ t.columns
      · cases hmax : idxmax (t.column "val_auroc") with
        | none => simp [process_csv_file, hv, ht, hmax] at h
        | some p =>
          rcases p with ⟨i, m⟩
          have hcell := (idxmax_spec _ i m hmax).2.1
          rw [List.getD_eq_getElem?_getD] at hcell
          simp [process_csv_file, hv, ht, hmax, cellAt] at h
          refine ⟨⟨m, ?_⟩, h.2⟩
          rw [← h.1.1]
          simpa [List.getD_eq_getElem?_getD] using hcell
      · simp [process_csv_file, hv, ht] at h
    · simp [process_csv_file, hv] at h

/-- A valid folder record always carries a numeric best val_auroc: it came
out of a successful process_csv_file call. -/
theorem entry_some_val (rootPath : String) (e : Entry) (r : FolderResult)
    (h : (entryProcess rootPath e).1 = some r) : ∃ q, r.val = some q := by
  by_cases hd : e.isDir
  · cases hf : find_csv_without_info (rootPath ++ "/" ++ e.name) e.listing with
    | none => simp [entryProcess, hd, hf] at h
    | some p =>
      cases hp : process_csv_file p.toStr (e.read p.base) with
      | mk res msgs2 =>
        cases res with
        | none => simp [entryProcess, hd, hf, hp] at h
        | some vt =>
          rcases vt with ⟨v, tc⟩
          obtain ⟨⟨q, hq⟩, _⟩ := process_some_val _ _ v tc msgs2 hp
          simp [entryProcess, hd, hf, hp] at h
          exact ⟨q, by rw [← h]; exact hq⟩
  · simp [entryProcess, hd] at h

/-- One loop iteration preserves the invariant. -/
theorem stepAcc_inv (rootPath : String) (acc : Acc) (e : Entry)
    (h : AccInv acc) : AccInv (stepAcc rootPath acc e) := by
  cases hres : (entryProcess rootPath e).1 with
  | none => simpa [stepAcc, hres] using h
  | some r =>
    obtain ⟨q', hq'⟩ := entry_some_val rootPath e r hres
    rcases h with ⟨hbv, hbt, hbf, hbfi, hres0⟩ | ⟨b, qb, l1, l2, hdec, hbval, hbv, hbt, hbf, hbfi, hmax, hsome, hfirst⟩
    · have hgt : pyGtOpt r.val acc.bestVal = true := by
        rw [hbv, hq']; rfl
      have hstep : stepAcc rootPath acc e =
          ⟨r.val, some r.test, some r.folder, some r.file, acc.results ++ [r]⟩ := by
        simp [stepAcc, hres, hgt]
      rw [hstep, hres0]
      refine Or.inr ⟨r, q', [], [], rfl, hq', hq', rfl, rfl, rfl, ?_, ?_, by simp⟩
      · intro x hx qx hqx
        simp only [List.nil_append, List.mem_singleton] at hx
        subst hx
        rw [hq'] at hqx
        exact le_of_eq (Option.some_injective ℚ hqx).symm
      · intro x hx
        simp only [List.nil_append, List.mem_singleton] at hx
        subst hx
        exact ⟨q', hq'⟩
    · by_cases hgt : pyGtOpt r.val acc.bestVal = true
      · have hlt : qb < q' := by
          rw [hbv, hq'] at hgt
          simpa [pyGtOpt] using hgt
        have hstep : stepAcc rootPath acc e =
            ⟨r.val, some r.test, some r.folder, some r.file, acc.results ++ [r]⟩ := by
          simp [stepAcc, hres, hgt]
        rw [hstep]
        refine Or.inr ⟨r, q', acc.results, [], by simp, hq', hq', rfl, rfl, rfl, ?_, ?_, ?_⟩
        · intro x hx qx hqx
          simp only [List.mem_append, List.mem_singleton] at hx
          rcases hx with hx | hx
          · exact le_of_lt (lt_of_le_of_lt (hmax x hx qx hqx) hlt)
          · subst hx
            rw [hq'] at hqx
            exact le_of_eq (Option.some_injective ℚ hqx).symm
        · intro x hx
          simp only [List.mem_append, List.mem_singleton] at hx
          rcases hx with hx | hx
          · exact hsome x hx
          · subst hx
            exact ⟨q', hq'⟩
        · intro x hx qx hqx
          exact lt_of_le_of_lt (hmax x hx qx hqx) hlt
      · have hle : q' ≤ qb := by
          rw [hbv, hq'] at hgt
          simpa [pyGtOpt] using hgt
        have hstep : stepAcc rootPath acc e =
            ⟨acc.bestVal, acc.bestTest, acc.bestFolder, acc.bestFile, acc.results ++ [r]⟩ := by
          simp [stepAcc, hres, hgt]
        rw [hstep]
        refine Or.inr ⟨b, qb, l1, l2 ++ [r], ?_, hbval, hbv, hbt, hbf, hbfi, ?_, ?_, hfirst⟩
        · rw [hdec]; simp
        · intro x hx qx hqx
          simp only [List.mem_append, List.mem_singleton] at hx
          rcases hx with hx | hx
          · exact hmax x hx qx hqx
          · subst hx
            rw [hq'] at hqx
            rw [← Option.some_injective ℚ hqx]
            exact hle
        · intro x hx
          simp only [List.mem_append, List.mem_singleton] at hx
          rcases hx with hx | hx
          · exact hsome x hx
          · subst hx
            exact ⟨q', hq'⟩

/-- The whole folder loop preserves the invariant. -/
theorem scan_inv (rootPath : String) (es : List Entry) :
    ∀ acc, AccInv acc → AccInv (scanFolders rootPath acc es).1 := by
  induction es with
  | nil => intro acc h; exact h
  | cons e rest ih =>
    intro acc h
    exact ih _ (stepAcc_inv rootPath acc e h)

/-- A skipped entry leaves the accumulator exactly as it was: the scan of a
listing with the entry removed computes the same accumulator. -/
theorem scan_skip_fst (rootPath : String) (e : Entry)
    (h : (entryProcess rootPath e).1 = none) (l1 l2 : List Entry) :
    ∀ acc, (scanFolders rootPath acc (l1 ++ e :: l2)).1 =
      (scanFolders rootPath acc (l1 ++ l2)).1 := by
  induction l1 with
  | nil =>
    intro acc
    show (scanFolders rootPath (stepAcc rootPath acc e) l2).1 = _
    rw [show stepAcc rootPath acc e = acc from by simp [stepAcc, h],
      List.nil_append]
  | cons f l1' ih =>
    intro acc
    exact ih (stepAcc rootPath acc f)

/-- A scan in which every entry is skipped returns the accumulator
unchanged. -/
theorem scan_all_skip (rootPath : String) (es : List Entry) :
    ∀ acc, (∀ e ∈ es, (entryProcess rootPath e).1 = none) →
      (scanFolders rootPath acc es).1 = acc := by
  induction es with
  | nil => intro acc _; rfl
  | cons e rest ih =>
    intro acc h
    have hstep : stepAcc rootPath acc e = acc := by
      simp [stepAcc, h e (by simp)]
    show (scanFolders rootPath (stepAcc rootPath acc e) rest).1 = acc
    rw [hstep]
    exact ih acc (fun f hf => h f (by simp [hf]))

/-- Claim C3: when the scan of a root directory collects at least one valid
folder result, the single-root Aggregator reports as overall best the
folder result whose best val_auroc is maximal over all collected results,
together with that folder's paired test_auroc, folder and file names, and
on ties it reports the first such folder in iteration order. -/
theorem claim_C3_aggregator_best (rootPath : String) (entries : List Entry)
    (hne : (analyze_directory rootPath (.present entries)).results ≠ []) :
    ∃ r q l1 l2,
      (analyze_directory rootPath (.present entries)).results = l1 ++ r :: l2 ∧
      r.val = some q ∧
      (analyze_directory rootPath (.present entries)).bestVal = some q ∧
      (analyze_directory rootPath (.present entries)).bestTest = some r.test ∧
      (analyze_directory rootPath (.present entries)).bestFolder = some r.folder ∧
      (analyze_directory rootPath (.present entries)).bestFile = some r.file ∧
      (∀ x ∈ (analyze_directory rootPath (.present entries)).results,
        ∀ qx : ℚ, x.val = some qx → qx ≤ q) ∧
      (∀ x ∈ l1, ∀ qx : ℚ, x.val = some qx → qx < q) := by
  have hinv : AccInv (scanFolders rootPath initAcc entries).1 :=
    scan_inv rootPath entries initAcc (Or.inl ⟨rfl, rfl, rfl, rfl, rfl⟩)
  rcases hinv with ⟨hbv, hbt, hbf, hbfi, hres0⟩ |
    ⟨r, q, l1, l2, hdec, hrv, hbv, hbt, hbf, hbfi, hmax, hsome, hfirst⟩
  · exfalso
    apply hne
    show (analyze_directory rootPath (.present entries)).results = []
    simp only [analyze_directory, hbt, hres0]
  · have heq : analyze_directory rootPath (.present entries) =
        ⟨(scanFolders rootPath initAcc entries).1.bestVal, some r.test,
         (scanFolders rootPath initAcc entries).1.bestFolder,
         (scanFolders rootPath initAcc entries).1.bestFile,
         (scanFolders rootPath initAcc entries).1.results,
         (scanFolders rootPath initAcc entries).2⟩ := by
      simp only [analyze_directory, hbt]
    refine ⟨r, q, l1, l2, ?_, hrv, ?_, ?_, ?_, ?_, ?_, hfirst⟩
    · rw [heq]; exact hdec
    · rw [heq]; exact hbv
    · rw [heq]
    · rw [heq]; exact hbf
    · rw [heq]; exact hbfi
    · rw [heq]; exact hmax

/-- The two accumulated lists of the multi-directory loop are the two
projections of one list of per-root best pairs, kept in root order. -/
theorem collect_eq_filterMap (roots : List (String × RootDir)) :
    (collectBests roots).vals = (roots.filterMap rootBest).map Prod.fst ∧
    (collectBests roots).tests = (roots.filterMap rootBest).map Prod.snd := by
  induction roots with
  | nil => exact ⟨rfl, rfl⟩
  | cons pr rest ih =>
    cases hbv : (analyze_directory pr.1 pr.2).bestVal with
    | none =>
      have hrb : rootBest pr = none := by
        simp [rootBest, hbv]
      simp [collectBests, hbv, List.filterMap_cons, hrb, ih.1, ih.2]
    | some v =>
      cases hbt : (analyze_directory pr.1 pr.2).bestTest with
      | none =>
        have hrb : rootBest pr = none := by
          simp [rootBest, hbv, hbt]
        simp [collectBests, hbv, hbt, List.filterMap_cons, hrb, ih.1, ih.2]
      | some tc =>
        have hrb : rootBest pr = some (v, tc) := by
          simp [rootBest, hbv, hbt]
        simp [collectBests, hbv, hbt, List.filterMap_cons, hrb, ih.1, ih.2]

/-- A nonexistent root contributes nothing to the multi-directory
accumulators: removing it changes no collected list. -/
theorem collect_missing_skip (p : String) (l1 l2 : List (String × RootDir)) :
    collectBests (l1 ++ (p, RootDir.missing) :: l2) = collectBests (l1 ++ l2) := by
  induction l1 with
  | nil =>
    show collectBests ((p, RootDir.missing) :: l2) = collectBests l2
    simp [collectBests, analyze_directory]
  | cons pr l1' ih =>
    show collectBests (pr :: (l1' ++ (p, RootDir.missing) :: l2)) =
      collectBests (pr :: (l1' ++ l2))
    simp only [collectBests, ih]

/-- The Python min fold over rationals picks a member that bounds the seed
and every element from below. -/
theorem foldl_min_spec (t : List ℚ) : ∀ m : ℚ,
    (t.foldl (fun a x => if x < a then x else a) m) ∈ m :: t ∧
    (t.foldl (fun a x => if x < a then x else a) m) ≤ m ∧
    (∀ x ∈ t, (t.foldl (fun a x => if x < a then x else a) m) ≤ x) := by
  induction t with
  | nil => intro m; simp
  | cons y t ih =>
    intro m
    have hm' : (if y < m then y else m) ≤ m ∧ (if y < m then y else m) ≤ y ∧
        ((if y < m then y else m) = m ∨ (if y < m then y else m) = y) := by
      by_cases hy : y < m <;> simp [hy] <;> [exact le_of_lt hy; exact le_of_not_lt hy]
    obtain ⟨hmem, hle, hall⟩ := ih (if y < m then y else m)
    refine ⟨?_, le_trans hle hm'.1, ?_⟩
    · simp only [List.foldl_cons]
      rcases List.mem_cons.mp hmem with hx | hx
      · rcases hm'.2.2 with he | he
        · rw [hx, he]; simp
        · rw [hx, he]; simp
      · simp [hx]
    · intro x hx
      rcases List.mem_cons.mp hx with hx | hx
      · rw [hx]; exact le_trans hle hm'.2.1
      · exact hall x hx

/-- The Python max fold over rationals picks a member that bounds the seed
and every element from above. -/
theorem foldl_max_spec (t : List ℚ) : ∀ m : ℚ,
    (t.foldl (fun a x => if x > a then x else a) m) ∈ m :: t ∧
    m ≤ (t.foldl (fun a x => if x > a then x else a) m) ∧
    (∀ x ∈ t, x ≤ (t.foldl (fun a x => if x > a then x else a) m)) := by
  induction t with
  | nil => intro m; simp
  | cons y t ih =>
    intro m
    have hm' : m ≤ (if y > m then y else m) ∧ y ≤ (if y > m then y else m) ∧
        ((if y > m then y else m) = m ∨ (if y > m then y else m) = y) := by
      by_cases hy : y > m <;> simp [hy] <;> [exact le_of_lt hy; exact le_of_not_lt hy]
    obtain ⟨hmem, hle, hall⟩ := ih (if y > m then y else m)
    refine ⟨?_, le_trans hm'.1 hle, ?_⟩
    · simp only [List.foldl_cons]
      rcases List.mem_cons.mp hmem with hx | hx
      · rcases hm'.2.2 with he | he
        · rw [hx, he]; simp
        · rw [hx, he]; simp
      · simp [hx]
    · intro x hx
      rcases List.mem_cons.mp hx with hx | hx
      · rw [hx]; exact le_trans hm'.2.1 hle
      · exact hall x hx

/-- Python min over a nonempty list of rationals is a member below every
element. -/
theorem pyMinQ_spec (l : List ℚ) (hne : l ≠ []) :
    ∃ a, pyMinQ l = some a ∧ a ∈ l ∧ ∀ x ∈ l, a ≤ x := by
  cases l with
  | nil => exact absurd rfl hne
  | cons h t =>
    obtain ⟨hmem, hle, hall⟩ := foldl_min_spec t h
    refine ⟨_, rfl, ?_, ?_⟩
    · exact hmem
    · intro x hx
      rcases List.mem_cons.mp hx with hx | hx
      · rw [hx]; exact hle
      · exact hall x hx

/-- Python max over a nonempty list of rationals is a member above every
element. -/
theorem pyMaxQ_spec (l : List ℚ) (hne : l ≠ []) :
    ∃ b, pyMaxQ l = some b ∧ b ∈ l ∧ ∀ x ∈ l, x ≤ b := by
  cases l with
  | nil => exact absurd rfl hne
  | cons h t =>
    obtain ⟨hmem, hle, hall⟩ := foldl_max_spec t h
    refine ⟨_, rfl, ?_, ?_⟩
    · exact hmem
    · intro x hx
      rcases List.mem_cons.mp hx with hx | hx
      · rw [hx]; exact hle
      · exact hall x hx

/-- Python sum over all-numeric cells is the rational sum. -/
theorem pySumC_map_some (qs : List ℚ) : pySumC (qs.map some) = some qs.sum := by
  have haux : ∀ (t : List ℚ) (c : ℚ),
      (t.map some).foldl pyAddC (some c) = some (c + t.sum) := by
    intro t
    induction t with
    | nil => intro c; simp
    | cons q t ih =>
      intro c
      simp only [List.map_cons, List.foldl_cons, pyAddC, List.sum_cons, ih]
      rw [add_assoc]
  simpa using haux qs 0

/-- Python min over all-numeric cells is the numeric min, wrapped. -/
theorem pyMinC_map_some (qs : List ℚ) :
    pyMinC (qs.map some) = (pyMinQ qs).map some := by
  cases qs with
  | nil => rfl
  | cons h t =>
    have haux : ∀ (t : List ℚ) (m : ℚ),
        (t.map some).foldl (fun a x => if pyLtC x a then x else a) (some m) =
          some (t.foldl (fun a x => if x < a then x else a) m) := by
      intro t
      induction t with
      | nil => intro m; rfl
      | cons y t ih =>
        intro m
        by_cases hy : y < m
        · have hb : pyLtC (some y) (some m) = true := by simp [pyLtC, hy]
          simp [hb, hy, ih y]
        · have hb : pyLtC (some y) (some m) = false := by simp [pyLtC, hy]
          simp [hb, hy, ih m]
    simp [pyMinC, pyMinQ, haux t h]

/-- Python max over all-numeric cells is the numeric max, wrapped. -/
theorem pyMaxC_map_some (qs : List ℚ) :
    pyMaxC (qs.map some) = (pyMaxQ qs).map some := by
  cases qs with
  | nil => rfl
  | cons h t =>
    have haux : ∀ (t : List ℚ) (m : ℚ),
        (t.map some).foldl (fun a x => if pyGtC x a then x else a) (some m) =
          some (t.foldl (fun a x => if x > a then x else a) m) := by
      intro t
      induction t with
      | nil => intro m; rfl
      | cons y t ih =>
        intro m
        by_cases hy : y > m
        · have hb : pyGtC (some y) (some m) = true := by simp [pyGtC, hy]
          simp [hb, hy, ih y]
        · have hb : pyGtC (some y) (some m) = false := by simp [pyGtC, hy]
          simp [hb, hy, ih m]
    simp [pyMaxC, pyMaxQ, haux t h]

/-- When every subdirectory is skipped, the single-root Aggregator reports
the absent sentinel in every best field and collects no results. -/
theorem analyze_all_skip (rootPath : String) (entries : List Entry)
    (h : ∀ e ∈ entries, (entryProcess rootPath e).1 = none) :
    (analyze_directory rootPath (.present entries)).bestVal = none ∧
    (analyze_directory rootPath (.present entries)).bestTest = none ∧
    (analyze_directory rootPath (.present entries)).bestFolder = none ∧
    (analyze_directory rootPath (.present entries)).bestFile = none ∧
    (analyze_directory rootPath (.present entries)).results = [] := by
  have hacc := scan_all_skip rootPath entries initAcc h
  refine ⟨?_, ?_, ?_, ?_, ?_⟩ <;>
    (simp only [analyze_directory]; simp only [hacc]; rfl)

/-- A directory entry with no selectable CSV produces no record and exactly
the no-CSV warning naming the folder. -/
theorem entry_no_csv (rootPath : String) (e : Entry) (hd : e.isDir = true)
    (hf : find_csv_without_info (rootPath ++ "/" ++ e.name) e.listing = none) :
    entryProcess rootPath e = (none, [noCsvMsg (rootPath ++ "/" ++ e.name)]) := by
  simp [entryProcess, hd, hf]

/-- A directory entry whose selected table misses a required column
produces no record and exactly the missing-columns warning naming the
file. -/
theorem entry_missing_cols (rootPath : String) (e : Entry) (p : FsPath)
    (t : Table) (hd : e.isDir = true)
    (hp : find_csv_without_info (rootPath ++ "/" ++ e.name) e.listing = some p)
    (hr : e.read p.base = .ok t)
    (hcols : ¬("val_auroc" ∈ t.columns ∧ "test_auroc" ∈ t.columns)) :
    entryProcess rootPath e = (none, [missingColsMsg p.toStr]) := by
  simp [entryProcess, hd, hp, process_csv_file, hr, hcols]

/-- A directory entry whose selected table cannot be read or parsed
produces no record and exactly the error line naming the file. -/
theorem entry_read_raises (rootPath : String) (e : Entry) (p : FsPath)
    (msg : String) (hd : e.isDir = true)
    (hp : find_csv_without_info (rootPath ++ "/" ++ e.name) e.listing = some p)
    (hr : e.read p.base = .raiseErr msg) :
    entryProcess rootPath e = (none, [errProcMsg p.toStr msg]) := by
  simp [entryProcess, hd, hp, process_csv_file, hr]

/-- With no valid root, the Multi-Directory Aggregator reports the absent
sentinel and prints the no-results line instead of any average. -/
theorem multi_no_results (roots : List (String × RootDir))
    (h : (collectBests roots).vals = []) :
    (analyze_multiple_directories roots).avgVal = none ∧
    (analyze_multiple_directories roots).avgTest = none ∧
    (analyze_multiple_directories roots).results = [] ∧
    noValidResultsMsg ∈ (analyze_multiple_directories roots).log := by
  refine ⟨?_, ?_, ?_, ?_⟩ <;> simp [analyze_multiple_directories, h]

/-- With at least one valid root, the Multi-Directory Aggregator returns
the arithmetic means of the collected lists. -/
theorem multi_avg_eq (roots : List (String × RootDir))
    (hne : (collectBests roots).vals ≠ []) :
    (analyze_multiple_directories roots).avgVal =
      some ((collectBests roots).vals.sum / ((collectBests roots).vals.length : ℚ)) ∧
    (analyze_multiple_directories roots).avgTest =
      some (pyDivNat (pySumC (collectBests roots).tests) (collectBests roots).tests.length) ∧
    (analyze_multiple_directories roots).results = (collectBests roots).results := by
  have h : (collectBests roots).vals.isEmpty = false := by
    cases hv : (collectBests roots).vals with
    | nil => exact absurd hv hne
    | cons a l => simp [hv]
  refine ⟨?_, ?_, ?_⟩ <;> simp [analyze_multiple_directories, h]

/-- Claim C1: for every table that parses with both the val_auroc and test_auroc
columns and whose val_auroc column has a well-defined maximum, the Metric
Extractor returns that maximum paired with the test_auroc cell of the same
row, and when several rows share the maximal val_auroc the returned row is
the first such row in row order. -/
theorem claim_C1_extractor_best_row (path : String) (t : Table) (i : Nat) (m : ℚ)
    (hv : t.columns.contains "val_auroc" = true)
    (ht : t.columns.contains "test_auroc" = true)
    (hmax : idxmax (t.column "val_auroc") = some (i, m)) :
    process_csv_file path (.ok t) =
      (some (some m, cellAt (t.column "test_auroc") i), []) ∧
    i < t.rows.length ∧
    cellAt (t.column "val_auroc") i = some m ∧
    (∀ j q, (t.column "val_auroc").getD j none = some q → q ≤ m) ∧
    (∀ j q, j < i → (t.column "val_auroc").getD j none = some q → q < m) := by
  obtain ⟨hlen, hcell, hbound, hfirst⟩ := idxmax_spec _ i m hmax
  exact ⟨process_ok_eq path t i m hv ht hmax,
    by simpa [Table.column] using hlen, hcell, hbound, hfirst⟩

/-- Witness for C1 at the tie table of the spec: the extractor returns the
pair (0.9, 0.5) of the first maximal row, and every earlier row is
strictly below 0.9. -/
theorem claim_C1_witness :
    process_csv_file "exp/run.csv" (.ok tieTable) =
      (some (some (mkRat 9 10), some (mkRat 5 10)), []) ∧
    (∀ j q, j < 1 → (tieTable.column "val_auroc").getD j none = some q →
      q < mkRat 9 10) := by
  have h := claim_C1_extractor_best_row "exp/run.csv" tieTable 1 (mkRat 9 10)
    (by decide) (by decide) (by decide)
  exact ⟨by rw [h.1]; decide, h.2.2.2.2⟩

/-- Claim C2: for every directory listing, the File Selector returns the first
name in listing order that the csv glob matches and whose lowercased base
name does not contain the substring "info", as a path inside the queried
directory, and returns the None sentinel exactly when no listed name
satisfies both conditions. -/
theorem claim_C2_selector_first (d : String) (l : List String) :
    (∀ p, find_csv_without_info d l = some p →
      p.dir = d ∧ globCsvMatch p.base = true ∧ hasInfo p.base = false ∧
      ∃ l1 l2, l = l1 ++ p.base :: l2 ∧
        ∀ n ∈ l1, ¬(globCsvMatch n = true ∧ hasInfo n = false)) ∧
    (find_csv_without_info d l = none ↔
      ∀ n ∈ l, ¬(globCsvMatch n = true ∧ hasInfo n = false)) := by
  constructor
  · intro p hp
    obtain ⟨hdir, hsel, l1, l2, hdec, hmin⟩ := find_some_spec d l p hp
    have hsel' : globCsvMatch p.base = true ∧ hasInfo p.base = false := by
      simpa [selectable] using hsel
    refine ⟨hdir, hsel'.1, hsel'.2, l1, l2, hdec, ?_⟩
    intro n hn hcon
    have := hmin n hn
    simp [selectable, hcon.1, hcon.2] at this
  · rw [find_none_iff]
    constructor
    · intro hall n hn hcon
      have := hall n hn
      simp [selectable, hcon.1, hcon.2] at this
    · intro hall n hn
      cases hsel : selectable n with
      | false => rfl
      | true =>
        have hglob : globCsvMatch n = true ∧ hasInfo n = false := by
          simpa [selectable] using hsel
        exact absurd hglob (hall n hn)

/-- Witness for C2: on a concrete listing the selector skips the info file
and the non-csv file and returns the first qualifying name; on a listing
of only an info file and a hidden file it returns the sentinel. -/
theorem claim_C2_witness :
    (∃ l1 l2, ["MyInfo.csv", "notes.txt", "run.csv", "b.csv"] =
      l1 ++ "run.csv" :: l2 ∧
      ∀ n ∈ l1, ¬(globCsvMatch n = true ∧ hasInfo n = false)) ∧
    find_csv_without_info "exp" ["MyInfo.csv", ".hidden.csv"] = none := by
  have h := (claim_C2_selector_first "exp"
    ["MyInfo.csv", "notes.txt", "run.csv", "b.csv"]).1 ⟨"exp", "run.csv"⟩ (by decide)
  exact ⟨h.2.2.2,
    (claim_C2_selector_first "exp" ["MyInfo.csv", ".hidden.csv"]).2.mpr (by decide)⟩

/-- Witness for C3 at the two-folder example of the spec: folder B with
val 0.85 and test 0.77 is reported as best. -/
theorem claim_C3_witness :
    (analyze_directory "root" (.present [entryA, entryB])).results ≠ [] ∧
    (analyze_directory "root" (.present [entryA, entryB])).bestFolder = some "B" ∧
    (analyze_directory "root" (.present [entryA, entryB])).bestVal =
      some (mkRat 85 100) ∧
    (analyze_directory "root" (.present [entryA, entryB])).bestTest =
      some (some (mkRat 77 100)) ∧
    (∃ r q l1 l2,
      (analyze_directory "root" (.present [entryA, entryB])).results = l1 ++ r :: l2 ∧
      r.val = some q ∧
      (analyze_directory "root" (.present [entryA, entryB])).bestVal = some q ∧
      (analyze_directory "root" (.present [entryA, entryB])).bestTest = some r.test ∧
      (analyze_directory "root" (.present [entryA, entryB])).bestFolder = some r.folder ∧
      (analyze_directory "root" (.present [entryA, entryB])).bestFile = some r.file ∧
      (∀ x ∈ (analyze_directory "root" (.present [entryA, entryB])).results,
        ∀ qx : ℚ, x.val = some qx → qx ≤ q) ∧
      (∀ x ∈ l1, ∀ qx : ℚ, x.val = some qx → qx < q)) := by
  refine ⟨by decide, by decide, by decide, by decide, ?_⟩
  exact claim_C3_aggregator_best "root" [entryA, entryB] (by decide)

/-- Claim C4: with at least one valid root, and all collected per-root test
values numeric, the Multi-Directory Aggregator returns the arithmetic mean
of the collected best val_auroc values and the arithmetic mean of the
collected best test_auroc values, and the min/max statistics it prints are
genuine minima and maxima of those lists. -/
theorem claim_C4_multi_averages (roots : List (String × RootDir)) (qs : List ℚ)
    (hne : (collectBests roots).vals ≠ [])
    (hts : (collectBests roots).tests = qs.map some) :
    (analyze_multiple_directories roots).avgVal =
      some ((collectBests roots).vals.sum / ((collectBests roots).vals.length : ℚ)) ∧
    (analyze_multiple_directories roots).avgTest =
      some (some (qs.sum / (qs.length : ℚ))) ∧
    (∃ a, pyMinQ (collectBests roots).vals = some a ∧
      a ∈ (collectBests roots).vals ∧ ∀ x ∈ (collectBests roots).vals, a ≤ x) ∧
    (∃ b, pyMaxQ (collectBests roots).vals = some b ∧
      b ∈ (collectBests roots).vals ∧ ∀ x ∈ (collectBests roots).vals, x ≤ b) ∧
    (∃ c, pyMinC (collectBests roots).tests = some (some c) ∧
      c ∈ qs ∧ ∀ x ∈ qs, c ≤ x) ∧
    (∃ dd, pyMaxC (collectBests roots).tests = some (some dd) ∧
      dd ∈ qs ∧ ∀ x ∈ qs, x ≤ dd) := by
  obtain ⟨hav, hat, _⟩ := multi_avg_eq roots hne
  have hqs : qs ≠ [] := by
    intro hq
    rw [hq] at hts
    obtain ⟨h1, h2⟩ := collect_eq_filterMap roots
    rw [hts] at h2
    have hL : roots.filterMap rootBest = [] := by
      have := List.map_eq_nil_iff.mp h2.symm
      exact this
    rw [hL] at h1
    exact hne (by simpa using h1)
  refine ⟨hav, ?_, pyMinQ_spec _ hne, pyMaxQ_spec _ hne, ?_, ?_⟩
  · rw [hat, hts, pySumC_map_some, List.length_map]
    rfl
  · obtain ⟨c, hc, hmem, hall⟩ := pyMinQ_spec qs hqs
    exact ⟨c, by rw [hts, pyMinC_map_some, hc]; rfl, hmem, hall⟩
  · obtain ⟨dd, hd, hmem, hall⟩ := pyMaxQ_spec qs hqs
    exact ⟨dd, by rw [hts, pyMaxC_map_some, hd]; rfl, hmem, hall⟩

unseal Rat.add Rat.mul Rat.inv in
/-- Witness for C4 at the two demo roots with bests (0.8, 0.7) and
(0.9, 0.6): the averages equal (0.85, 0.65). -/
theorem claim_C4_witness :
    (collectBests demoRoots).vals ≠ [] ∧
    (analyze_multiple_directories demoRoots).avgVal = some (mkRat 85 100) ∧
    (analyze_multiple_directories demoRoots).avgTest = some (some (mkRat 65 100)) := by
  have h := claim_C4_multi_averages demoRoots [mkRat 7 10, mkRat 6 10]
    (by decide) (by decide)
  refine ⟨by decide, ?_, ?_⟩
  · rw [h.1]; decide
  · rw [h.2.1]; decide

/-- Claim C5: a root directory in which no subdirectory yields a valid metric
pair is reported with the absent sentinel (None fields, never a numeric
value), and the Multi-Directory Aggregator with zero valid roots reports
no results instead of computing any average. -/
theorem claim_C5_no_results (rootPath : String) (entries : List Entry)
    (roots : List (String × RootDir))
    (h1 : ∀ e ∈ entries, (entryProcess rootPath e).1 = none)
    (h2 : (collectBests roots).vals = []) :
    ((analyze_directory rootPath (.present entries)).bestVal = none ∧
     (analyze_directory rootPath (.present entries)).bestTest = none ∧
     (analyze_directory rootPath (.present entries)).results = []) ∧
    ((analyze_multiple_directories roots).avgVal = none ∧
     (analyze_multiple_directories roots).avgTest = none ∧
     noValidResultsMsg ∈ (analyze_multiple_directories roots).log) := by
  obtain ⟨ha, hb, _, _, he⟩ := analyze_all_skip rootPath entries h1
  obtain ⟨hx, hy, _, hw⟩ := multi_no_results roots h2
  exact ⟨⟨ha, hb, he⟩, ⟨hx, hy, hw⟩⟩

/-- Witness for C5 at a root whose only subdirectory holds just an info
file, and a root list producing zero valid results. -/
theorem claim_C5_witness :
    ((analyze_directory "root" (.present [infoEntry])).bestVal = none ∧
     (analyze_directory "root" (.present [infoEntry])).bestTest = none ∧
     (analyze_directory "root" (.present [infoEntry])).results = []) ∧
    ((analyze_multiple_directories [("r", RootDir.present [infoEntry])]).avgVal = none ∧
     (analyze_multiple_directories [("r", RootDir.present [infoEntry])]).avgTest = none ∧
     noValidResultsMsg ∈
       (analyze_multiple_directories [("r", RootDir.present [infoEntry])]).log) :=
  claim_C5_no_results "root" [infoEntry] [("r", RootDir.present [infoEntry])]
    (by decide) (by decide)

/-- Claim C6 as stated is false on the single-root tool: a missing sole root is
reported and the analyzer returns the absent sentinel, but no process exit
happens; main completes normally. -/
theorem claim_C6_counterexample :
    main_single [("data", RootDir.missing)] =
      SingleMain.completed ⟨none, none, none, none, [], [missingRootMsg "data"]⟩ ∧
    main_single [("data", RootDir.missing)] ≠ SingleMain.usageExit := by
  exact ⟨by decide, by decide⟩

/-- Claim C6 amended: a missing root is warned about and skipped by the
multi-root driver without affecting the other roots, and the driver exits
with an error only when no supplied root exists; in the single-root tool a
missing sole root is reported and the analyzer returns the absent sentinel
without scanning, the process completing normally without an exit. -/
theorem claim_C6_amended (args : List (String × RootDir)) (p : String)
    (l1 l2 : List (String × RootDir)) :
    (args.filter (fun pr => pr.2.pathExists) ≠ [] →
      main_mult args = .completed
        (analyze_multiple_directories (args.filter (fun pr => pr.2.pathExists)))
        ((args.filter (fun pr => !pr.2.pathExists)).map (fun pr => skipDirMsg pr.1))) ∧
    (collectBests (l1 ++ (p, RootDir.missing) :: l2) = collectBests (l1 ++ l2)) ∧
    (args ≠ [] → (∀ a ∈ args, a.2 = RootDir.missing) →
      main_mult args = .noValidDirsExit
        ((args.filter (fun pr => !pr.2.pathExists)).map (fun pr => skipDirMsg pr.1) ++
         ["Error: No valid directories provided."])) ∧
    (main_single [(p, RootDir.missing)] =
      .completed ⟨none, none, none, none, [], [missingRootMsg p]⟩) := by
  refine ⟨?_, collect_missing_skip p l1 l2, ?_, rfl⟩
  · intro hvalid
    have hargs : args.isEmpty = false := by
      cases args with
      | nil => exact absurd rfl hvalid
      | cons a l => rfl
    have hv : (args.filter (fun pr => pr.2.pathExists)).isEmpty = false := by
      cases hf : args.filter (fun pr => pr.2.pathExists) with
      | nil => exact absurd hf hvalid
      | cons a l => rfl
    simp [main_mult, hargs, hv]
  · intro hne hall
    have hargs : args.isEmpty = false := by
      cases args with
      | nil => exact absurd rfl hne
      | cons a l => rfl
    have hfilter : args.filter (fun pr => pr.2.pathExists) = [] := by
      apply List.filter_eq_nil_iff.mpr
      intro a ha
      rw [hall a ha]
      decide
    simp [main_mult, hargs, hfilter]

unseal Rat.add Rat.mul Rat.inv in
/-- Witness for C6 amended, at one missing and one existing root: the
missing root is skipped with a warning, the run completes; with only the
missing root the driver exits with the no-valid-directories error. -/
theorem claim_C6_witness :
    main_mult [("a", RootDir.missing), ("b", RootDir.present [entryB])] =
      .completed (analyze_multiple_directories [("b", RootDir.present [entryB])])
        [skipDirMsg "a"] ∧
    main_mult [("a", RootDir.missing)] =
      .noValidDirsExit [skipDirMsg "a", "Error: No valid directories provided."] ∧
    collectBests [("a", RootDir.missing), ("b", RootDir.present [entryB])] =
      collectBests [("b", RootDir.present [entryB])] := by
  have h := claim_C6_amended [("a", RootDir.missing), ("b", RootDir.present [entryB])]
    "a" [] [("b", RootDir.present [entryB])]
  have h2 := claim_C6_amended [("a", RootDir.missing)] "a" [] []
  have hfil : List.filter (fun pr => pr.2.pathExists)
      [("a", RootDir.missing), ("b", RootDir.present [entryB])] =
      [("b", RootDir.present [entryB])] := rfl
  refine ⟨?_, ?_, h.2.1⟩
  · refine (h.1 ?_).trans (by decide)
    rw [hfil]
    exact List.cons_ne_nil _ _
  · refine (h2.2.2.1 (List.cons_ne_nil _ _) ?_).trans (by decide)
    intro a ha
    rw [List.mem_singleton] at ha
    subst ha
    rfl

/-- Claim C7: a subdirectory whose only glob-matched tables are info-named is
skipped with a warning naming the folder; one whose selected table is
unreadable or misses a required column such as test_auroc is skipped with
a warning or error line naming the file; and a skipped entry leaves the
scan of the remaining entries unchanged — no crash, processing
continues. -/
theorem claim_C7_warn_and_skip (rootPath : String) (e : Entry) (p : FsPath)
    (t : Table) (msg : String) (acc : Acc) (l1 l2 : List Entry) :
    (e.isDir = true →
      (∀ n ∈ e.listing, globCsvMatch n = true → hasInfo n = true) →
      entryProcess rootPath e = (none, [noCsvMsg (rootPath ++ "/" ++ e.name)])) ∧
    (e.isDir = true →
      find_csv_without_info (rootPath ++ "/" ++ e.name) e.listing = some p →
      e.read p.base = .ok t → "test_auroc" ∉ t.columns →
      entryProcess rootPath e = (none, [missingColsMsg p.toStr])) ∧
    (e.isDir = true →
      find_csv_without_info (rootPath ++ "/" ++ e.name) e.listing = some p →
      e.read p.base = .raiseErr msg →
      entryProcess rootPath e = (none, [errProcMsg p.toStr msg])) ∧
    ((entryProcess rootPath e).1 = none →
      (scanFolders rootPath acc (l1 ++ e :: l2)).1 =
        (scanFolders rootPath acc (l1 ++ l2)).1) := by
  refine ⟨?_, ?_, ?_, ?_⟩
  · intro hd hinfo
    apply entry_no_csv rootPath e hd
    rw [find_none_iff]
    intro n hn
    cases hg : globCsvMatch n with
    | false => simp [selectable, hg]
    | true => simp [selectable, hg, hinfo n hn hg]
  · intro hd hp hr hcols
    exact entry_missing_cols rootPath e p t hd hp hr (fun hc => hcols hc.2)
  · intro hd hp hr
    exact entry_read_raises rootPath e p msg hd hp hr
  · intro h
    exact scan_skip_fst rootPath e h l1 l2 acc

/-- Witness for C7: the info-only folder is skipped with its warning, the
missing-column folder is skipped with a warning naming the file, and
removing the skipped folder from the listing leaves the scan result
unchanged. -/
theorem claim_C7_witness :
    entryProcess "root" infoEntry = (none, [noCsvMsg "root/logs"]) ∧
    entryProcess "root" badColsEntry = (none, [missingColsMsg "root/badcols/metrics.csv"]) ∧
    (scanFolders "root" initAcc [entryA, infoEntry, entryB]).1 =
      (scanFolders "root" initAcc [entryA, entryB]).1 := by
  have h := claim_C7_warn_and_skip "root" infoEntry ⟨"x", "y"⟩ emptyTable "m"
    initAcc [entryA] [entryB]
  have h2 := claim_C7_warn_and_skip "root" badColsEntry
    ⟨"root/badcols", "metrics.csv"⟩ noTestColTable "m" initAcc [] []
  refine ⟨?_, ?_, ?_⟩
  · exact (h.1 (by decide) (by decide)).trans (by decide)
  · exact (h2.2.1 (by decide) (by decide) rfl (by decide)).trans (by decide)
  · exact h.2.2.2 (by decide)

/-- Claim C8: the Metric Extractor returns the (None, None) sentinel on every
failure — a read or parse exception, a missing required column, an empty
table, or an all-NaN val_auroc column whose maximum is undefined — so one
bad file never propagates an exception. -/
theorem claim_C8_process_total (path msg : String) (t : Table) :
    (process_csv_file path (.raiseErr msg)).1 = none ∧
    (¬("val_auroc" ∈ t.columns ∧ "test_auroc" ∈ t.columns) →
      (process_csv_file path (.ok t)).1 = none) ∧
    (idxmax (t.column "val_auroc") = none →
      (process_csv_file path (.ok t)).1 = none) ∧
    (t.rows = [] → (process_csv_file path (.ok t)).1 = none) ∧
    ((∀ c ∈ t.column "val_auroc", c = none) →
      (process_csv_file path (.ok t)).1 = none) := by
  have hidx : idxmax (t.column "val_auroc") = none →
      (process_csv_file path (.ok t)).1 = none := by
    intro h
    by_cases hv : "val_auroc" ∈ t.columns
    · by_cases ht : "test_auroc" ∈ t.columns
      · simp [process_csv_file, hv, ht, h]
      · simp [process_csv_file, hv, ht]
    · simp [process_csv_file, hv]
  refine ⟨rfl, ?_, hidx, ?_, ?_⟩
  · intro h
    by_cases hv : "val_auroc" ∈ t.columns
    · by_cases ht : "test_auroc" ∈ t.columns
      · exact absurd ⟨hv, ht⟩ h
      · simp [process_csv_file, hv, ht]
    · simp [process_csv_file, hv]
  · intro h
    exact hidx (by simp [Table.column, h, idxmax])
  · intro h
    exact hidx (idxmax_all_none _ h)

/-- Witness for C8 on a parse error, a table missing test_auroc, an empty
table and an all-NaN column: each yields the sentinel. -/
theorem claim_C8_witness :
    (process_csv_file "exp/a.csv" (.raiseErr "bad file")).1 = none ∧
    (process_csv_file "exp/b.csv" (.ok noTestColTable)).1 = none ∧
    (process_csv_file "exp/c.csv" (.ok emptyTable)).1 = none ∧
    (process_csv_file "exp/d.csv" (.ok nanTable)).1 = none := by
  have h1 := claim_C8_process_total "exp/a.csv" "bad file" noTestColTable
  have h2 := claim_C8_process_total "exp/b.csv" "x" noTestColTable
  have h3 := claim_C8_process_total "exp/c.csv" "x" emptyTable
  have h4 := claim_C8_process_total "exp/d.csv" "x" nanTable
  exact ⟨h1.1, h2.2.1 (by decide), h3.2.2.2.1 (by decide), h4.2.2.2.2 (by decide)⟩

/-- Claim C9: the accumulated per-root lists of best val and best test values
are the two projections of one list of per-root best pairs, appended
together exactly for the roots with valid results; hence they have equal
length and are index-aligned. -/
theorem claim_C9_aligned_lists (roots : List (String × RootDir)) :
    (collectBests roots).vals = (roots.filterMap rootBest).map Prod.fst ∧
    (collectBests roots).tests = (roots.filterMap rootBest).map Prod.snd ∧
    (collectBests roots).vals.length = (collectBests roots).tests.length := by
  obtain ⟨h1, h2⟩ := collect_eq_filterMap roots
  exact ⟨h1, h2, by rw [h1, h2, List.length_map, List.length_map]⟩

/-- Claim C10: on a directory path that does not exist the glob yields no
candidates, so the File Selector totally returns the None sentinel. -/
theorem claim_C10_missing_dir_none (fs : FileSystem) (d : String)
    (h : fs d = none) : find_csv_in_fs fs d = none :=
  find_in_fs_missing fs d h

/-- Witness for C10 on the empty filesystem. -/
theorem claim_C10_witness : find_csv_in_fs emptyFs "/data/models" = none :=
  claim_C10_missing_dir_none emptyFs "/data/models" rfl

end BrainScan
